import Mathlib

/-!
Verification of the incident-learning simulator's orchestration logic.

The definitions below are a shallow embedding of the TypeScript source:

* `cdk/lambda/security/easy.ts`, `security/hard.ts`, `resilience/easy.ts`,
  `resilience/hard.ts` — fault-injection handlers;
* `cdk/lambda/time-record/index.ts` (second document: the game-reset handler)
  — the reset coordinator, including the per-security-group restore helpers
  `resetAlbSecurityGroup` / `resetEc2SecurityGroup` / `resetRdsSecurityGroup`;
* `cdk/lib/construct/observation.ts` — the Step Functions polling loop
  (parallel observer fan-out, convergence choice, 1-second wait), together
  with the observer lambdas (`cdk/lambda/observer/*.ts`), which all share the
  shape: check the resource, write `Red`/`Green` to the per-component
  DynamoDB item, return `solved := (state = Green)`, and rethrow on error.

Game phases in the source are the strings "Ready" / "Ongoing" / "Resetting"
(the spec's Idle / Running / Recovering).  Component health is the string
"Green" / "Red" (the spec's Healthy / Faulted), keyed by
(table, ComponentName) because the security and resilience scenario tables
both contain components of the same name.
-/

namespace IncidentSim

/-- Component health as stored in the scenario tables (`CurrentState`). -/
inductive CompState
  | Green
  | Red
deriving DecidableEq, Repr

/-- A ledger key: (scenario table name, ComponentName). -/
abbrev CompKey := String × String

/-- The Component Ledger: the per-component health rows of the scenario
tables, modelled as an association list. -/
abbrev Ledger := List (CompKey × CompState)

/-- `UpdateCommand` with `SET CurrentState = :state`: upsert one item. -/
def ledgerSet (l : Ledger) (k : CompKey) (s : CompState) : Ledger :=
  match l with
  | [] => [(k, s)]
  | (k', s') :: rest =>
      if k' = k then (k, s) :: rest else (k', s') :: ledgerSet rest k s

/-- Read one component's health from the ledger. -/
def ledgerGet (l : Ledger) (k : CompKey) : Option CompState :=
  match l with
  | [] => none
  | (k', s') :: rest => if k' = k then some s' else ledgerGet rest k

theorem ledgerGet_set_self (l : Ledger) (k : CompKey) (s : CompState) :
    ledgerGet (ledgerSet l k s) k = some s := by
  induction l with
  | nil => simp [ledgerSet, ledgerGet]
  | cons p rest ih =>
      obtain ⟨k', s'⟩ := p
      by_cases h : k' = k
      · simp [ledgerSet, ledgerGet, h]
      · simp [ledgerSet, ledgerGet, h, ih]

theorem ledgerGet_set_ne (l : Ledger) (k k' : CompKey) (s : CompState)
    (h : k' ≠ k) : ledgerGet (ledgerSet l k s) k' = ledgerGet l k' := by
  have hk : ¬k = k' := fun hh => h hh.symm
  induction l with
  | nil => simp [ledgerSet, ledgerGet, hk]
  | cons p rest ih =>
      obtain ⟨k₀, s₀⟩ := p
      by_cases h0 : k₀ = k
      · subst h0
        simp [ledgerSet, ledgerGet, hk]
      · simp [ledgerSet, ledgerGet, h0, ih]

/-! ## Security-group baseline restore (time-record reset helpers)

`resetAlbSecurityGroup` / `resetEc2SecurityGroup` / `resetRdsSecurityGroup`
each revoke the group's entire current `IpPermissions` list (when non-empty)
and then authorize the single CDK-defined baseline rule. -/

/-- The source of an inbound rule: a CIDR range or another security group. -/
inductive RuleSource
  | cidr (ip : String)
  | group (groupId : String)
deriving DecidableEq, Repr

/-- One inbound rule (`IpPermission` with a single range/pair). -/
structure SgRule where
  ipProtocol : String
  fromPort : Nat
  toPort : Nat
  src : RuleSource
deriving DecidableEq, Repr

/-- `RevokeSecurityGroupIngressCommand`: remove the given permissions. -/
def revokeIngress (current toRevoke : List SgRule) : List SgRule :=
  current.filter (fun r => !(toRevoke.contains r))

/-- `AuthorizeSecurityGroupIngressCommand`: add the given permissions. -/
def authorizeIngress (current added : List SgRule) : List SgRule :=
  current ++ added

/-- The CDK baseline for the ALB security group: HTTP from anywhere. -/
def albBaselineRule : SgRule :=
  { ipProtocol := "tcp", fromPort := 80, toPort := 80
    src := RuleSource.cidr "0.0.0.0/0" }

/-- The CDK baseline for the EC2 security group: port 8080 from the ALB SG. -/
def ec2BaselineRule (albSgId : String) : SgRule :=
  { ipProtocol := "tcp", fromPort := 8080, toPort := 8080
    src := RuleSource.group albSgId }

/-- The CDK baseline for the RDS security group: port 5432 from the EC2 SG. -/
def rdsBaselineRule (ec2SgId : String) : SgRule :=
  { ipProtocol := "tcp", fromPort := 5432, toPort := 5432
    src := RuleSource.group ec2SgId }

/-- `resetAlbSecurityGroup` of `time-record/index.ts`: revoke all existing
inbound rules, then authorize the baseline HTTP rule. -/
def resetAlbSecurityGroup (sg : List SgRule) : List SgRule :=
  let afterRevoke := if sg.isEmpty then sg else revokeIngress sg sg
  authorizeIngress afterRevoke [albBaselineRule]

/-- `resetEc2SecurityGroup`: revoke all, authorize port 8080 from ALB SG. -/
def resetEc2SecurityGroup (sg : List SgRule) (albSgId : String) :
    List SgRule :=
  let afterRevoke := if sg.isEmpty then sg else revokeIngress sg sg
  authorizeIngress afterRevoke [ec2BaselineRule albSgId]

/-- `resetRdsSecurityGroup`: revoke all, authorize port 5432 from EC2 SG. -/
def resetRdsSecurityGroup (sg : List SgRule) (ec2SgId : String) :
    List SgRule :=
  let afterRevoke := if sg.isEmpty then sg else revokeIngress sg sg
  authorizeIngress afterRevoke [rdsBaselineRule ec2SgId]

theorem revokeIngress_self (l : List SgRule) : revokeIngress l l = [] := by
  unfold revokeIngress
  apply List.filter_eq_nil_iff.mpr
  intro r hr
  simpa using hr

/-! ## Handler event traces

The injection and reset handlers are modelled as pure functions from an
environment (current game state, scan results, and which external calls
succeed) to an HTTP status code plus the ordered list of state-changing
actions the handler performs. -/

/-- A state-changing action performed by a handler, in program order. -/
inductive Ev
  /-- `updateComponentState` / `updateDynamoDBState`: write one ledger row. -/
  | ledgerW (key : CompKey) (st : CompState)
  /-- `updateGameState` / `notifyGameEnd`: write the game-phase row. -/
  | phaseW (st : String)
  /-- `stopRunningStepFunctions` (errors swallowed inside). -/
  | stopExecs
  /-- `resetSecurityGroups` step. -/
  | sgStep
  /-- `enableS3PublicAccessBlock` step. -/
  | s3Step
  /-- `enableCloudTrail` step. -/
  | trailStep
  /-- `resetIAMRole` step (all errors swallowed inside `resetRole`). -/
  | iamStep
  /-- `forceRestartEC2InstancesWithStateChange`: stop-wait-start restart. -/
  | restartStep
  /-- `startObservationStateMachine` (errors swallowed inside). -/
  | startObs
deriving DecidableEq, Repr

/-- Whether an action is a Component Ledger write. -/
def Ev.isLedgerW : Ev → Bool
  | .ledgerW _ _ => true
  | _ => false

/-- A handler's observable result: HTTP status code and ordered actions. -/
structure HandlerResult where
  statusCode : Nat
  events : List Ev
deriving DecidableEq, Repr

/-- Security scenario table name (as defaulted in the handlers). -/
def securityTable : String := "SecurityScenarioTable"

/-- Resilience scenario table name (as defaulted in the handlers). -/
def resilienceTable : String := "ResilienceScenarioTable"

/-! ## Fault-injection handlers -/

/-- Environment of an Easy-difficulty injection handler: the game state read
from DynamoDB, the scanned component list, the random pick
(`Math.floor(Math.random() * components.length)`), whether the selected
component's resource info is found, and which actuations complete without
throwing. -/
structure EasyEnv where
  gameState : String
  components : List String
  pick : Nat
  resourceFound : String → Bool
  actOk : String → Bool

/-- Environment of a Hard-difficulty injection handler. -/
structure HardEnv where
  gameState : String
  components : List String
  actOk : String → Bool

/-- `security/easy.ts` handler: guard on phase `Ready`, pick one component
at random, inject, mark it `Red`, then set the phase to `Ongoing`.  An
actuation error returns 500 before any ledger or phase write. -/
def securityEasyHandler (e : EasyEnv) : HandlerResult :=
  if e.gameState ≠ "Ready" then ⟨400, []⟩
  else
    match e.components.get? e.pick with
    | none => ⟨500, []⟩
    | some c =>
        if e.actOk c then
          ⟨200, [Ev.ledgerW (securityTable, c) .Red, Ev.phaseW "Ongoing"]⟩
        else ⟨500, []⟩

/-- `security/hard.ts` handler: guard on phase `Ready`, then inject every
scanned component; a per-component error is logged and skipped; each
successfully actuated component is marked `Red`; finally the phase becomes
`Ongoing`. -/
def securityHardHandler (e : HardEnv) : HandlerResult :=
  if e.gameState ≠ "Ready" then ⟨400, []⟩
  else
    let ws := e.components.filterMap fun c =>
      if e.actOk c then some (Ev.ledgerW (securityTable, c) .Red) else none
    ⟨200, ws ++ [Ev.phaseW "Ongoing"]⟩

/-- The component skipped by the Hard-mode resilience handler. -/
def excludedInResilienceHard : String := "EC2 Process"

/-- `resilience/hard.ts` handler: like the security Hard handler over the
resilience table, but the `EC2 Process` component is skipped before any
actuation is attempted. -/
def resilienceHardHandler (e : HardEnv) : HandlerResult :=
  if e.gameState ≠ "Ready" then ⟨400, []⟩
  else
    let ws := e.components.filterMap fun c =>
      if c = excludedInResilienceHard then none
      else if e.actOk c then some (Ev.ledgerW (resilienceTable, c) .Red)
      else none
    ⟨200, ws ++ [Ev.phaseW "Ongoing"]⟩

/-- `resilience/easy.ts` handler: guard on phase `Ready`, pick one component,
look up its resource mapping (missing mapping throws, caught as 500), inject,
mark it `Red`, then set the phase to `Ongoing`. -/
def resilienceEasyHandler (e : EasyEnv) : HandlerResult :=
  if e.gameState ≠ "Ready" then ⟨400, []⟩
  else
    match e.components.get? e.pick with
    | none => ⟨500, []⟩
    | some c =>
        if ¬e.resourceFound c then ⟨500, []⟩
        else if e.actOk c then
          ⟨200, [Ev.ledgerW (resilienceTable, c) .Red, Ev.phaseW "Ongoing"]⟩
        else ⟨500, []⟩

/-! ## The reset handler (`time-record/index.ts`, game-reset document)

Program order: (1) stop running observation executions (errors swallowed);
(2) read the game state and return 409 if it is already `Resetting`;
(3) security-group restore, (4) S3 public-access block, (5) CloudTrail
enable — each of these rethrows on error, landing in the handler's catch
(500), so later steps are skipped; (6) IAM role rebinding — every error is
swallowed inside `resetRole`; (7) EC2 stop-wait-start restart, then the
phase write to `Resetting` — a restart error rethrows before the phase
write; (8) start the observation state machine (errors swallowed);
then 202. -/

/-- Environment of the reset handler.  `stopOk`, `iamOk` and `startObsOk`
record whether those calls succeed, but the code swallows their errors, so
the handler's behaviour does not depend on them. -/
structure ResetEnv where
  gameState : String
  stopOk : Bool
  sgOk : Bool
  s3Ok : Bool
  trailOk : Bool
  iamOk : Bool
  restartOk : Bool
  startObsOk : Bool

/-- The game-reset handler of `time-record/index.ts`. -/
def resetHandler (e : ResetEnv) : HandlerResult :=
  if e.gameState = "Resetting" then ⟨409, [Ev.stopExecs]⟩
  else if ¬e.sgOk then ⟨500, [Ev.stopExecs, Ev.sgStep]⟩
  else if ¬e.s3Ok then ⟨500, [Ev.stopExecs, Ev.sgStep, Ev.s3Step]⟩
  else if ¬e.trailOk then
    ⟨500, [Ev.stopExecs, Ev.sgStep, Ev.s3Step, Ev.trailStep]⟩
  else if ¬e.restartOk then
    ⟨500, [Ev.stopExecs, Ev.sgStep, Ev.s3Step, Ev.trailStep, Ev.iamStep,
           Ev.restartStep]⟩
  else
    ⟨202, [Ev.stopExecs, Ev.sgStep, Ev.s3Step, Ev.trailStep, Ev.iamStep,
           Ev.restartStep, Ev.phaseW "Resetting", Ev.startObs]⟩

/-! ## The observation state machine (`observation.ts` + observer lambdas)

Every observer lambda has the same shape (e.g. `security-albsg.ts`): check
the real resource, write `Red` if the fault is present and `Green`
otherwise to the component's scenario-table row, and return
`solved := (currentState = "Green")`; any check error, write error or
timeout rethrows, failing that branch of the Step Functions `Parallel`
state (there is no catch, so the whole execution fails).  The machine then
evaluates `isGameEndCondition` on the returned `solved` flags: when all are
true it writes game state `Ready` (`notifyGameEnd`) and stops; otherwise it
waits 1 second (`waitInLoop`) and repeats the parallel fan-out. -/

/-- What one observer's iteration sees: the check completed and found the
fault present (`vulnerable := true`) or absent, or the branch threw or
timed out. -/
inductive ObserverOutcome
  | ok (vulnerable : Bool)
  | err
deriving DecidableEq, Repr

/-- The state an observer writes for a completed check. -/
def observerWrite (vulnerable : Bool) : CompState :=
  if vulnerable then .Red else .Green

/-- The `solved` flag an observer returns: `currentState = "Green"`. -/
def observerSolved (vulnerable : Bool) : Bool :=
  observerWrite vulnerable = .Green

/-- Result of one `observationParallel` iteration: the ledger after all
completed branches' writes, those writes in order, and the list of `solved`
flags — `none` when some branch failed (the `Parallel` state then fails the
execution; completed branches' writes persist). -/
structure BranchOut where
  ledger : Ledger
  writes : List (CompKey × CompState)
  solved : Option (List Bool)
deriving Repr

/-- Run the parallel observer branches of one iteration. -/
def runBranches : List (CompKey × ObserverOutcome) → Ledger → BranchOut
  | [], l => ⟨l, [], some []⟩
  | (_, .err) :: rest, l =>
      let r := runBranches rest l
      ⟨r.ledger, r.writes, none⟩
  | (k, .ok v) :: rest, l =>
      let r := runBranches rest (ledgerSet l k (observerWrite v))
      ⟨r.ledger, (k, observerWrite v) :: r.writes,
       r.solved.map (observerSolved v :: ·)⟩

/-- The JSONata game-end condition of `observation.ts`:
`$count($filter(input, solved)) = $count(input)`. -/
def isGameEndCondition (solved : List Bool) : Bool :=
  (solved.filter (fun b => b)).length == solved.length

/-- How an observation run ended (within the modelled finite trace). -/
inductive RunStatus
  /-- `isGameEndCondition` held: `notifyGameEnd` ran, execution succeeded. -/
  | converged
  /-- A branch failed: the `Parallel` state and the execution failed. -/
  | failedExec
  /-- The trace ended with the machine still looping. -/
  | stillPolling
deriving DecidableEq, Repr

/-- The observable outcome of an observation run over a finite trace:
iterations executed, 1-second waits taken, final ledger, all ledger writes
in order, final game state, and how the run ended. -/
structure RunTrace where
  iters : Nat
  waits : Nat
  ledger : Ledger
  writes : List (CompKey × CompState)
  gameState : String
  status : RunStatus
deriving Repr

/-- `waitInLoop` duration: `cdk.Duration.seconds(1)`. -/
def waitInLoopSeconds : Nat := 1

/-- The polling loop of the observation state machine.  `comps` is the fixed
polled set (one entry per parallel branch); the trace supplies each
iteration's observer outcomes. -/
def obsLoop (comps : List CompKey) :
    List (List ObserverOutcome) → Ledger → String → RunTrace
  | [], l, gs => ⟨0, 0, l, [], gs, .stillPolling⟩
  | outs :: rest, l, gs =>
      let b := runBranches (comps.zip outs) l
      match b.solved with
      | none => ⟨1, 0, b.ledger, b.writes, gs, .failedExec⟩
      | some solved =>
          if isGameEndCondition solved then
            ⟨1, 0, b.ledger, b.writes, "Ready", .converged⟩
          else
            let r := obsLoop comps rest b.ledger gs
            ⟨r.iters + 1, r.waits + 1, r.ledger, b.writes ++ r.writes,
             r.gameState, r.status⟩

/-- The state a completed branch writes (junk `Red` for `err`, which never
writes). -/
def outcomeWrite : ObserverOutcome → CompState
  | .ok v => observerWrite v
  | .err => .Red

/-- The `solved` flag a completed branch returns (junk `false` for `err`). -/
def outcomeSolved : ObserverOutcome → Bool
  | .ok v => observerSolved v
  | .err => false

theorem runBranches_ledgerGet_of_not_mem
    (br : List (CompKey × ObserverOutcome)) (l : Ledger) (k : CompKey)
    (hk : k ∉ br.map Prod.fst) :
    ledgerGet (runBranches br l).ledger k = ledgerGet l k := by
  induction br generalizing l with
  | nil => rfl
  | cons p rest ih =>
      obtain ⟨k₀, o⟩ := p
      rw [List.map_cons, List.mem_cons, not_or] at hk
      have hk₀ : k ≠ k₀ := hk.1
      have hrest : k ∉ rest.map Prod.fst := hk.2
      cases o with
      | err => simpa [runBranches] using ih l hrest
      | ok v =>
          have := ih (ledgerSet l k₀ (observerWrite v)) hrest
          simpa [runBranches, ledgerGet_set_ne _ _ _ _ hk₀] using this

theorem runBranches_spec (br : List (CompKey × ObserverOutcome)) (l : Ledger)
    (hnd : (br.map Prod.fst).Nodup)
    (hok : ∀ p ∈ br, p.2 ≠ ObserverOutcome.err) :
    (runBranches br l).solved = some (br.map fun p => outcomeSolved p.2) ∧
    ∀ p ∈ br, ledgerGet (runBranches br l).ledger p.1 =
      some (outcomeWrite p.2) := by
  induction br generalizing l with
  | nil => exact ⟨rfl, by intro p hp; cases hp⟩
  | cons q rest ih =>
      obtain ⟨k₀, o⟩ := q
      rw [List.map_cons, List.nodup_cons] at hnd
      have hknd : k₀ ∉ rest.map Prod.fst := hnd.1
      have hrnd : (rest.map Prod.fst).Nodup := hnd.2
      have hrok : ∀ p ∈ rest, p.2 ≠ ObserverOutcome.err := fun p hp =>
        hok p (List.mem_cons_of_mem _ hp)
      cases o with
      | err => exact absurd rfl (hok (k₀, .err) (List.mem_cons_self _ _))
      | ok v =>
          obtain ⟨ihs, ihl⟩ := ih (ledgerSet l k₀ (observerWrite v)) hrnd hrok
          refine ⟨by simp [runBranches, ihs, outcomeSolved], ?_⟩
          intro p hp
          rcases List.mem_cons.mp hp with hp | hp
          · subst hp
            have := runBranches_ledgerGet_of_not_mem rest
              (ledgerSet l k₀ (observerWrite v)) k₀ hknd
            simp [runBranches, this, ledgerGet_set_self, outcomeWrite]
          · simpa [runBranches] using ihl p hp

theorem isGameEndCondition_iff_all (solved : List Bool) :
    isGameEndCondition solved = true ↔ ∀ b ∈ solved, b = true := by
  unfold isGameEndCondition
  rw [beq_iff_eq]
  constructor
  · intro h b hb
    by_contra hb'
    have hlt : (solved.filter (fun b => b)).length < solved.length := by
      rw [List.length_filter_lt_length_iff_exists]
      exact ⟨b, hb, by simpa using hb'⟩
    omega
  · intro h
    have : solved.filter (fun b => b) = solved :=
      List.filter_eq_self.mpr (by intro a ha; simpa using h a ha)
    rw [this]

/-- Replay a handler's actions against the Component Ledger: only
`ledgerW` actions touch it. -/
def applyEv (l : Ledger) : Ev → Ledger
  | .ledgerW k s => ledgerSet l k s
  | _ => l

/-- Replay a whole event list against the Component Ledger. -/
def applyEvents (l : Ledger) (evs : List Ev) : Ledger :=
  evs.foldl applyEv l

theorem list_filterMap_guard {α β : Type} (p : α → Bool) (f : α → β)
    (l : List α) :
    l.filterMap (fun c => if p c then some (f c) else none) =
      (l.filter p).map f := by
  induction l with
  | nil => rfl
  | cons a t ih =>
      by_cases h : p a <;>
        simp [List.filterMap_cons, List.filter_cons, h, ih]

theorem list_filterMap_guard_excl {α β : Type} [DecidableEq α] (x : α)
    (p : α → Bool) (f : α → β) (l : List α) :
    l.filterMap
        (fun c => if c = x then none else if p c then some (f c) else none) =
      ((l.filter (fun c => c ≠ x)).filter p).map f := by
  induction l with
  | nil => rfl
  | cons a t ih =>
      by_cases h1 : a = x
      · simp [List.filterMap_cons, List.filter_cons, h1, ih]
      · by_cases h2 : p a <;>
          simp [List.filterMap_cons, List.filter_cons, h1, h2, ih]

/-! ## Claim theorems -/

/-- C10: a successful security-group reset leaves each group's inbound rule
set equal to exactly the single CDK baseline rule — ALB SG: TCP 80 from
0.0.0.0/0; EC2 SG: TCP 8080 from the ALB SG; RDS SG: TCP 5432 from the EC2
SG — for every prior rule configuration, because every pre-existing inbound
rule is revoked before the baseline rule is authorized, so operator-added
extra rules are removed as well. -/
theorem sg_reset_yields_exact_baseline (albPrior ec2Prior rdsPrior : List SgRule)
    (albSgId ec2SgId : String) :
    resetAlbSecurityGroup albPrior = [albBaselineRule] ∧
    resetEc2SecurityGroup ec2Prior albSgId = [ec2BaselineRule albSgId] ∧
    resetRdsSecurityGroup rdsPrior ec2SgId = [rdsBaselineRule ec2SgId] := by
  have base : ∀ (l : List SgRule) (r : SgRule),
      authorizeIngress (if l.isEmpty then l else revokeIngress l l) [r] =
        [r] := by
    intro l r
    by_cases h : l.isEmpty
    · rw [if_pos h, List.isEmpty_iff.mp h]
      rfl
    · rw [if_neg h, revokeIngress_self]
      rfl
  exact ⟨base albPrior _, base ec2Prior _, base rdsPrior _⟩

/-- C5: every injection handler (security/resilience × easy/hard) first
reads the game phase and, when it is not `Ready` (Idle), returns 400 with
no side effects: no Component Ledger write and no game-phase write. -/
theorem inject_not_ready_rejected (e₁ e₂ : EasyEnv) (e₃ e₄ : HardEnv)
    (h₁ : e₁.gameState ≠ "Ready") (h₂ : e₂.gameState ≠ "Ready")
    (h₃ : e₃.gameState ≠ "Ready") (h₄ : e₄.gameState ≠ "Ready") :
    securityEasyHandler e₁ = ⟨400, []⟩ ∧
    resilienceEasyHandler e₂ = ⟨400, []⟩ ∧
    securityHardHandler e₃ = ⟨400, []⟩ ∧
    resilienceHardHandler e₄ = ⟨400, []⟩ := by
  refine ⟨?_, ?_, ?_, ?_⟩ <;>
    simp [securityEasyHandler, resilienceEasyHandler, securityHardHandler,
          resilienceHardHandler, h₁, h₂, h₃, h₄]

/-- C5 witness: with the phase `Ongoing`, all four handlers reject with 400
and perform no writes. -/
theorem inject_not_ready_rejected_witness :
    securityEasyHandler ⟨"Ongoing", ["ALB SG"], 0, fun _ => true,
      fun _ => true⟩ = ⟨400, []⟩ ∧
    resilienceEasyHandler ⟨"Ongoing", ["EC2"], 0, fun _ => true,
      fun _ => true⟩ = ⟨400, []⟩ ∧
    securityHardHandler ⟨"Ongoing", ["ALB SG"], fun _ => true⟩ = ⟨400, []⟩ ∧
    resilienceHardHandler ⟨"Ongoing", ["EC2"], fun _ => true⟩ = ⟨400, []⟩ :=
  inject_not_ready_rejected _ _ _ _ (by decide) (by decide) (by decide)
    (by decide)

/-- C6: a Hard injection on phase `Ready` selects all components of the
category except the explicitly excluded ones — in the resilience category
`EC2 Process` is always skipped, in the security category nothing is — and
marks exactly the successfully actuated selected components `Red` in the
Ledger, all before the single phase write to `Ongoing` (Running). -/
theorem hard_injection_selection (e : HardEnv) (h : e.gameState = "Ready") :
    resilienceHardHandler e =
      ⟨200, (((e.components.filter
          (fun c => c ≠ excludedInResilienceHard)).filter
            (fun c => e.actOk c)).map
              fun c => Ev.ledgerW (resilienceTable, c) .Red) ++
        [Ev.phaseW "Ongoing"]⟩ ∧
    securityHardHandler e =
      ⟨200, ((e.components.filter (fun c => e.actOk c)).map
          fun c => Ev.ledgerW (securityTable, c) .Red) ++
        [Ev.phaseW "Ongoing"]⟩ := by
  constructor
  · simp only [resilienceHardHandler, h]
    rw [if_neg (by simp)]
    rw [list_filterMap_guard_excl]
  · simp only [securityHardHandler, h]
    rw [if_neg (by simp)]
    rw [list_filterMap_guard]

/-- C6 witness: a concrete Hard injection on `Ready` over a two-component
resilience catalog skips `EC2 Process`, faults `EC2`, then goes `Ongoing`. -/
theorem hard_injection_selection_witness :
    resilienceHardHandler ⟨"Ready", ["EC2", "EC2 Process"], fun _ => true⟩ =
      ⟨200, ((((["EC2", "EC2 Process"] : List String).filter
          (fun c => c ≠ excludedInResilienceHard)).filter
            (fun _ => true)).map
              fun c => Ev.ledgerW (resilienceTable, c) .Red) ++
        [Ev.phaseW "Ongoing"]⟩ ∧
    securityHardHandler ⟨"Ready", ["EC2", "EC2 Process"], fun _ => true⟩ =
      ⟨200, (((["EC2", "EC2 Process"] : List String).filter
          (fun _ => true)).map
            fun c => Ev.ledgerW (securityTable, c) .Red) ++
        [Ev.phaseW "Ongoing"]⟩ :=
  hard_injection_selection ⟨"Ready", ["EC2", "EC2 Process"], fun _ => true⟩
    rfl

/-- C9: a reset invoked while the phase is already `Resetting` first stops
every running observation execution, then reads the phase and returns 409
Conflict, performing no restore step, writing no ledger or phase state, and
starting no new observation run. -/
theorem reset_during_resetting (e : ResetEnv)
    (h : e.gameState = "Resetting") :
    resetHandler e = ⟨409, [Ev.stopExecs]⟩ := by
  simp [resetHandler, h]

/-- C9 witness: concrete reset call in phase `Resetting`. -/
theorem reset_during_resetting_witness :
    resetHandler ⟨"Resetting", true, true, true, true, true, true, true⟩ =
      ⟨409, [Ev.stopExecs]⟩ :=
  reset_during_resetting _ rfl

/-- C2 counterexample: invoked while the phase is `Resetting` (the spec's
Recovering), reset is rejected with 409 Conflict — not accepted, and it
does not re-cancel and restart the reset steps. -/
theorem reset_rejected_from_recovering_cex :
    (resetHandler ⟨"Resetting", true, true, true, true, true, true,
        true⟩).statusCode = 409 ∧
    ¬(resetHandler ⟨"Resetting", true, true, true, true, true, true,
        true⟩).statusCode = 202 := by
  decide

/-- C2 (amended): with the abortable restore steps succeeding, reset is
accepted (202) exactly from phases other than `Resetting` (so from Idle and
Running); from `Resetting` it is rejected with 409 Conflict after stopping
running observation executions, performing nothing else. -/
theorem reset_accepted_iff_not_resetting (e : ResetEnv)
    (hsg : e.sgOk = true) (hs3 : e.s3Ok = true) (htr : e.trailOk = true)
    (hre : e.restartOk = true) :
    ((resetHandler e).statusCode = 202 ↔ e.gameState ≠ "Resetting") ∧
    (e.gameState = "Resetting" →
      resetHandler e = ⟨409, [Ev.stopExecs]⟩) := by
  by_cases h : e.gameState = "Resetting" <;>
    simp [resetHandler, h, hsg, hs3, htr, hre]

/-- C2 amended witness: from `Ready` the reset is accepted with 202. -/
theorem reset_accepted_iff_not_resetting_witness :
    ((resetHandler ⟨"Ready", true, true, true, true, true, true,
        true⟩).statusCode = 202 ↔ ("Ready" : String) ≠ "Resetting") ∧
    (("Ready" : String) = "Resetting" →
      resetHandler ⟨"Ready", true, true, true, true, true, true, true⟩ =
        ⟨409, [Ev.stopExecs]⟩) :=
  reset_accepted_iff_not_resetting
    ⟨"Ready", true, true, true, true, true, true, true⟩ rfl rfl rfl rfl

/-- C3 counterexample: an error inside the security-group restore step
aborts the reset — the handler returns 500 and the S3, CloudTrail, IAM,
restart and confirmation-pass steps are never attempted. -/
theorem reset_step_error_aborts_cex :
    resetHandler ⟨"Ready", true, false, true, true, true, true, true⟩ =
      ⟨500, [Ev.stopExecs, Ev.sgStep]⟩ ∧
    Ev.s3Step ∉ (resetHandler ⟨"Ready", true, false, true, true, true, true,
      true⟩).events := by
  decide

/-- C3 (amended): errors in the execution-stop step, inside the IAM role
rebinding, and in the confirmation-pass start are swallowed — the handler's
result does not depend on those flags and a reset whose other steps succeed
returns 202 having attempted every step — but an error in the
security-group restore, the S3 public-access-block, the CloudTrail enable,
or the workload-restart step aborts the reset with 500, skipping every
later step. -/
theorem reset_step_error_policy (e : ResetEnv)
    (h : e.gameState ≠ "Resetting") :
    (e.sgOk = true → e.s3Ok = true → e.trailOk = true → e.restartOk = true →
      resetHandler e = ⟨202, [Ev.stopExecs, Ev.sgStep, Ev.s3Step,
        Ev.trailStep, Ev.iamStep, Ev.restartStep, Ev.phaseW "Resetting",
        Ev.startObs]⟩) ∧
    (e.sgOk = false → resetHandler e = ⟨500, [Ev.stopExecs, Ev.sgStep]⟩) ∧
    (e.sgOk = true → e.s3Ok = false →
      resetHandler e = ⟨500, [Ev.stopExecs, Ev.sgStep, Ev.s3Step]⟩) ∧
    (e.sgOk = true → e.s3Ok = true → e.trailOk = false →
      resetHandler e = ⟨500, [Ev.stopExecs, Ev.sgStep, Ev.s3Step,
        Ev.trailStep]⟩) ∧
    (e.sgOk = true → e.s3Ok = true → e.trailOk = true →
      e.restartOk = false →
      resetHandler e = ⟨500, [Ev.stopExecs, Ev.sgStep, Ev.s3Step,
        Ev.trailStep, Ev.iamStep, Ev.restartStep]⟩) := by
  refine ⟨?_, ?_, ?_, ?_, ?_⟩ <;>
    · intros
      simp [resetHandler, h, *]

/-- C3 amended witness: with every step succeeding (regardless of the
swallowed flags, here all set to `false`), the reset completes with 202. -/
theorem reset_step_error_policy_witness :
    resetHandler ⟨"Ready", false, true, true, true, false, true, false⟩ =
      ⟨202, [Ev.stopExecs, Ev.sgStep, Ev.s3Step, Ev.trailStep, Ev.iamStep,
        Ev.restartStep, Ev.phaseW "Resetting", Ev.startObs]⟩ :=
  (reset_step_error_policy
      ⟨"Ready", false, true, true, true, false, true, false⟩
      (by decide)).1 rfl rfl rfl rfl

/-- C4 counterexample: a fully successful reset invocation leaves a
`Red` (Faulted) Component Ledger entry exactly as it was — no entry is
forced to `Green`/Healthy by the reset itself. -/
theorem reset_forces_ledger_green_cex :
    ledgerGet
        (applyEvents [((securityTable, "ALB SG"), CompState.Red)]
          (resetHandler ⟨"Ongoing", true, true, true, true, true, true,
            true⟩).events)
        (securityTable, "ALB SG") = some CompState.Red ∧
    (resetHandler ⟨"Ongoing", true, true, true, true, true, true,
      true⟩).statusCode = 202 := by
  decide

/-- C4 (amended): no reset invocation writes any Component Ledger entry:
replaying a reset's actions leaves every ledger unchanged (its only state
writes are the phase write to `Resetting` and starting the confirmation
pass), so entries return to `Green` only through the post-reset observation
run. -/
theorem reset_leaves_ledger_unchanged (e : ResetEnv) (l : Ledger) :
    applyEvents l (resetHandler e).events = l ∧
    ((resetHandler e).events.filter Ev.isLedgerW) = [] := by
  unfold resetHandler
  by_cases h1 : e.gameState = "Resetting" <;> by_cases h2 : e.sgOk <;>
    by_cases h3 : e.s3Ok <;> by_cases h4 : e.trailOk <;>
      by_cases h5 : e.restartOk <;>
        simp [h1, h2, h3, h4, h5, applyEvents, applyEv, Ev.isLedgerW]

/-- C1: an observation iteration whose checks all complete declares
convergence and writes game phase `Ready` (Running→Idle) exactly when every
polled component reads `Green` (Healthy) in the Ledger after that
iteration's writes; when some component still reads `Red`, no phase write
happens at this iteration and the loop repeats after exactly one
`waitInLoop` of 1 second. -/
theorem observation_converges_iff_all_green (comps : List CompKey)
    (outs : List ObserverOutcome) (rest : List (List ObserverOutcome))
    (l : Ledger) (gs : String)
    (hnd : comps.Nodup) (hlen : comps.length = outs.length)
    (hok : ∀ o ∈ outs, o ≠ ObserverOutcome.err) :
    ((∀ k ∈ comps,
        ledgerGet (runBranches (comps.zip outs) l).ledger k =
          some CompState.Green) →
      obsLoop comps (outs :: rest) l gs =
        ⟨1, 0, (runBranches (comps.zip outs) l).ledger,
         (runBranches (comps.zip outs) l).writes, "Ready",
         RunStatus.converged⟩) ∧
    ((¬∀ k ∈ comps,
        ledgerGet (runBranches (comps.zip outs) l).ledger k =
          some CompState.Green) →
      obsLoop comps (outs :: rest) l gs =
        ⟨(obsLoop comps rest (runBranches (comps.zip outs) l).ledger
            gs).iters + 1,
         (obsLoop comps rest (runBranches (comps.zip outs) l).ledger
            gs).waits + 1,
         (obsLoop comps rest (runBranches (comps.zip outs) l).ledger
            gs).ledger,
         (runBranches (comps.zip outs) l).writes ++
           (obsLoop comps rest (runBranches (comps.zip outs) l).ledger
             gs).writes,
         (obsLoop comps rest (runBranches (comps.zip outs) l).ledger
            gs).gameState,
         (obsLoop comps rest (runBranches (comps.zip outs) l).ledger
            gs).status⟩) ∧
    waitInLoopSeconds = 1 := by
  have hfst : (comps.zip outs).map Prod.fst = comps :=
    List.map_fst_zip comps outs (le_of_eq hlen)
  have hnd' : ((comps.zip outs).map Prod.fst).Nodup := by
    rw [hfst]; exact hnd
  have hok' : ∀ p ∈ comps.zip outs, p.2 ≠ ObserverOutcome.err := by
    intro p hp
    obtain ⟨a, b⟩ := p
    exact hok b (List.of_mem_zip hp).2
  obtain ⟨hs, hl⟩ := runBranches_spec (comps.zip outs) l hnd' hok'
  have hiff :
      isGameEndCondition ((comps.zip outs).map fun p => outcomeSolved p.2) =
          true ↔
        ∀ k ∈ comps,
          ledgerGet (runBranches (comps.zip outs) l).ledger k =
            some CompState.Green := by
    rw [isGameEndCondition_iff_all]
    constructor
    · intro h k hk
      rw [← hfst] at hk
      obtain ⟨p, hp, hpk⟩ := List.mem_map.mp hk
      have hsol : outcomeSolved p.2 = true :=
        h _ (List.mem_map_of_mem _ hp)
      have hw := hl p hp
      cases hpo : p.2 with
      | err => exact absurd hpo (hok' p hp)
      | ok v =>
          rw [hpo] at hsol hw
          have hg : observerWrite v = CompState.Green := by
            simpa [outcomeSolved, observerSolved] using hsol
          rw [← hpk, hw]
          simp [outcomeWrite, hg]
    · intro h b hb
      obtain ⟨p, hp, rfl⟩ := List.mem_map.mp hb
      have hk : p.1 ∈ comps := by
        rw [← hfst]; exact List.mem_map_of_mem _ hp
      have hw := hl p hp
      have heq : outcomeWrite p.2 = CompState.Green :=
        Option.some.inj (hw.symm.trans (h p.1 hk))
      cases hpo : p.2 with
      | err => exact absurd hpo (hok' p hp)
      | ok v =>
          rw [hpo] at heq
          have hg : observerWrite v = CompState.Green := by
            simpa [outcomeWrite] using heq
          simp [outcomeSolved, observerSolved, hg]
  refine ⟨?_, ?_, rfl⟩
  · intro hall
    have hcond := hiff.mpr hall
    simp only [obsLoop, hs, hcond, if_true]
  · intro hnall
    have hcond :
        isGameEndCondition
          ((comps.zip outs).map fun p => outcomeSolved p.2) = false := by
      rw [← Bool.not_eq_true]
      exact fun hc => hnall (hiff.mp hc)
    simp only [obsLoop, hs, hcond]
    simp

/-- C1 witness: a single-component iteration that observes the fault fixed
converges at once and writes `Ready`. -/
theorem observation_converges_iff_all_green_witness :
    obsLoop [(("SecurityScenarioTable", "ALB SG") : CompKey)]
        ([ObserverOutcome.ok false] :: []) [] "Ongoing" =
      ⟨1, 0,
       (runBranches
         ([(("SecurityScenarioTable", "ALB SG") : CompKey)].zip
           [ObserverOutcome.ok false]) []).ledger,
       (runBranches
         ([(("SecurityScenarioTable", "ALB SG") : CompKey)].zip
           [ObserverOutcome.ok false]) []).writes, "Ready",
       RunStatus.converged⟩ :=
  (observation_converges_iff_all_green
      [(("SecurityScenarioTable", "ALB SG") : CompKey)]
      [ObserverOutcome.ok false] [] [] "Ongoing"
      (by decide) (by decide) (by decide)).1 (by decide)

theorem runBranches_solved_none (br : List (CompKey × ObserverOutcome))
    (l : Ledger) (k : CompKey) (hp : (k, ObserverOutcome.err) ∈ br) :
    (runBranches br l).solved = none := by
  induction br generalizing l with
  | nil => cases hp
  | cons q rest ih =>
      obtain ⟨k₀, o⟩ := q
      cases o with
      | err => simp [runBranches]
      | ok v =>
          have h : (k, ObserverOutcome.err) ∈ rest := by
            rcases List.mem_cons.mp hp with h | h
            · simp at h
            · exact h
          simp [runBranches, ih (ledgerSet l k₀ (observerWrite v)) h]

theorem runBranches_err_key_unchanged (br : List (CompKey × ObserverOutcome))
    (l : Ledger) (k : CompKey) (hnd : (br.map Prod.fst).Nodup)
    (hp : (k, ObserverOutcome.err) ∈ br) :
    ledgerGet (runBranches br l).ledger k = ledgerGet l k := by
  induction br generalizing l with
  | nil => cases hp
  | cons q rest ih =>
      obtain ⟨k₀, o⟩ := q
      rw [List.map_cons, List.nodup_cons] at hnd
      rcases List.mem_cons.mp hp with h | h
      · have hk : k = k₀ := congrArg Prod.fst h
        have ho : o = ObserverOutcome.err := (congrArg Prod.snd h).symm
        subst hk
        subst ho
        simpa [runBranches] using
          runBranches_ledgerGet_of_not_mem rest l k hnd.1
      · have hkmem : k ∈ rest.map Prod.fst := by
          have := List.mem_map_of_mem Prod.fst h
          simpa using this
        have hne : k ≠ k₀ := fun hh => hnd.1 (hh ▸ hkmem)
        cases o with
        | err => simpa [runBranches] using ih l hnd.2 h
        | ok v =>
            have := ih (ledgerSet l k₀ (observerWrite v)) hnd.2 h
            simpa [runBranches, ledgerGet_set_ne _ _ _ _ hne] using this

/-- C7 counterexample: an observer error in the first iteration fails the
Step Functions execution — the run terminates after one iteration with the
phase untouched, and the second iteration (which would have converged)
never executes, so a failing observer does more than delay convergence. -/
theorem observer_error_terminates_run_cex :
    (obsLoop [(("SecurityScenarioTable", "ALB SG") : CompKey),
        (("SecurityScenarioTable", "CloudTrail") : CompKey)]
      [[ObserverOutcome.err, ObserverOutcome.ok true],
       [ObserverOutcome.ok false, ObserverOutcome.ok false]]
      [] "Ongoing").status = RunStatus.failedExec ∧
    (obsLoop [(("SecurityScenarioTable", "ALB SG") : CompKey),
        (("SecurityScenarioTable", "CloudTrail") : CompKey)]
      [[ObserverOutcome.err, ObserverOutcome.ok true],
       [ObserverOutcome.ok false, ObserverOutcome.ok false]]
      [] "Ongoing").iters = 1 ∧
    (obsLoop [(("SecurityScenarioTable", "ALB SG") : CompKey),
        (("SecurityScenarioTable", "CloudTrail") : CompKey)]
      [[ObserverOutcome.err, ObserverOutcome.ok true],
       [ObserverOutcome.ok false, ObserverOutcome.ok false]]
      [] "Ongoing").gameState = "Ongoing" := by
  decide

/-- C7 (amended): an observer check that errors or times out is never
treated as healthy — the erroring component's Ledger entry is left exactly
as it was and no convergence is declared in that iteration — but it fails
its branch of the `Parallel` state and with it the whole observation
execution: the iteration yields no `solved` list, the run ends with
`failedExec` after this iteration, and the phase is not written. -/
theorem observer_error_never_healthy (comps : List CompKey)
    (outs : List ObserverOutcome) (rest : List (List ObserverOutcome))
    (l : Ledger) (gs : String) (k : CompKey)
    (hnd : comps.Nodup) (hlen : comps.length = outs.length)
    (herr : (k, ObserverOutcome.err) ∈ comps.zip outs) :
    (runBranches (comps.zip outs) l).solved = none ∧
    obsLoop comps (outs :: rest) l gs =
      ⟨1, 0, (runBranches (comps.zip outs) l).ledger,
       (runBranches (comps.zip outs) l).writes, gs,
       RunStatus.failedExec⟩ ∧
    ledgerGet (runBranches (comps.zip outs) l).ledger k = ledgerGet l k := by
  have hfst : (comps.zip outs).map Prod.fst = comps :=
    List.map_fst_zip comps outs (le_of_eq hlen)
  have hnd' : ((comps.zip outs).map Prod.fst).Nodup := by
    rw [hfst]; exact hnd
  have hnone := runBranches_solved_none (comps.zip outs) l k herr
  refine ⟨hnone, ?_, runBranches_err_key_unchanged _ l k hnd' herr⟩
  simp only [obsLoop, hnone]

/-- C7 amended witness: one of two components errors; its entry keeps its
prior `Red`, no convergence, and the execution fails. -/
theorem observer_error_never_healthy_witness :
    (runBranches
        ([(("SecurityScenarioTable", "ALB SG") : CompKey),
          (("SecurityScenarioTable", "CloudTrail") : CompKey)].zip
          [ObserverOutcome.err, ObserverOutcome.ok true])
        [((("SecurityScenarioTable", "ALB SG") : CompKey),
          CompState.Red)]).solved = none ∧
    obsLoop [(("SecurityScenarioTable", "ALB SG") : CompKey),
        (("SecurityScenarioTable", "CloudTrail") : CompKey)]
      ([ObserverOutcome.err, ObserverOutcome.ok true] :: [])
      [((("SecurityScenarioTable", "ALB SG") : CompKey), CompState.Red)]
      "Ongoing" =
      ⟨1, 0,
       (runBranches
         ([(("SecurityScenarioTable", "ALB SG") : CompKey),
           (("SecurityScenarioTable", "CloudTrail") : CompKey)].zip
           [ObserverOutcome.err, ObserverOutcome.ok true])
         [((("SecurityScenarioTable", "ALB SG") : CompKey),
           CompState.Red)]).ledger,
       (runBranches
         ([(("SecurityScenarioTable", "ALB SG") : CompKey),
           (("SecurityScenarioTable", "CloudTrail") : CompKey)].zip
           [ObserverOutcome.err, ObserverOutcome.ok true])
         [((("SecurityScenarioTable", "ALB SG") : CompKey),
           CompState.Red)]).writes, "Ongoing", RunStatus.failedExec⟩ ∧
    ledgerGet
        (runBranches
          ([(("SecurityScenarioTable", "ALB SG") : CompKey),
            (("SecurityScenarioTable", "CloudTrail") : CompKey)].zip
            [ObserverOutcome.err, ObserverOutcome.ok true])
          [((("SecurityScenarioTable", "ALB SG") : CompKey),
            CompState.Red)]).ledger
        (("SecurityScenarioTable", "ALB SG") : CompKey) =
      ledgerGet
        [((("SecurityScenarioTable", "ALB SG") : CompKey), CompState.Red)]
        (("SecurityScenarioTable", "ALB SG") : CompKey) :=
  observer_error_never_healthy
    [(("SecurityScenarioTable", "ALB SG") : CompKey),
     (("SecurityScenarioTable", "CloudTrail") : CompKey)]
    [ObserverOutcome.err, ObserverOutcome.ok true] []
    [((("SecurityScenarioTable", "ALB SG") : CompKey), CompState.Red)]
    "Ongoing" (("SecurityScenarioTable", "ALB SG") : CompKey)
    (by decide) (by decide) (by decide)

/-- C8 counterexample: in a single two-iteration run (no injection or reset
in between), a component marked `Green` (Healthy) by the first iteration is
re-marked `Red` (Faulted) by the second when its check reads faulted again:
the run's ordered writes are Green-then-Red for the same component, and the
final ledger shows it `Red`. -/
theorem healthy_remarked_faulted_cex :
    (obsLoop [(("SecurityScenarioTable", "ALB SG") : CompKey),
        (("SecurityScenarioTable", "CloudTrail") : CompKey)]
      [[ObserverOutcome.ok false, ObserverOutcome.ok true],
       [ObserverOutcome.ok true, ObserverOutcome.ok false]]
      [] "Ongoing").writes =
      [((("SecurityScenarioTable", "ALB SG") : CompKey), CompState.Green),
       ((("SecurityScenarioTable", "CloudTrail") : CompKey), CompState.Red),
       ((("SecurityScenarioTable", "ALB SG") : CompKey), CompState.Red),
       ((("SecurityScenarioTable", "CloudTrail") : CompKey),
         CompState.Green)] ∧
    ledgerGet
        (obsLoop [(("SecurityScenarioTable", "ALB SG") : CompKey),
            (("SecurityScenarioTable", "CloudTrail") : CompKey)]
          [[ObserverOutcome.ok false, ObserverOutcome.ok true],
           [ObserverOutcome.ok true, ObserverOutcome.ok false]]
          [] "Ongoing").ledger
        (("SecurityScenarioTable", "ALB SG") : CompKey) =
      some CompState.Red := by
  decide

/-- C8 (amended): an iteration's writes are determined by that iteration's
check results alone — for every completed branch the component is written
`Red` iff its check found the fault, independent of the ledger's previous
contents — so within a run a component marked Healthy stays Healthy exactly
as long as its own checks keep reading healthy, and is re-marked Faulted by
a later iteration whenever they do not. -/
theorem iteration_writes_follow_current_check
    (br : List (CompKey × ObserverOutcome)) (l l' : Ledger) :
    (runBranches br l).writes =
      br.filterMap (fun p =>
        match p.2 with
        | .ok v => some (p.1, observerWrite v)
        | .err => none) ∧
    (runBranches br l).writes = (runBranches br l').writes := by
  induction br generalizing l l' with
  | nil => exact ⟨rfl, rfl⟩
  | cons q rest ih =>
      obtain ⟨k₀, o⟩ := q
      cases o with
      | err =>
          exact ⟨by simpa [runBranches, List.filterMap_cons] using (ih l l').1,
                 by simpa [runBranches] using (ih l l').2⟩
      | ok v =>
          refine ⟨?_, ?_⟩
          · have := (ih (ledgerSet l k₀ (observerWrite v)) l').1
            simpa [runBranches, List.filterMap_cons] using this
          · have := (ih (ledgerSet l k₀ (observerWrite v))
              (ledgerSet l' k₀ (observerWrite v))).2
            simpa [runBranches] using this

end IncidentSim
